import Mathlib

/-!
Verification of the `CausalEffect` estimator from `src/nonparametric/causal_reg.py`
(back-door adjustment estimator for causal effects).

The Python code is shallowly embedded here.  The external collaborators
(statsmodels kernel-density / kernel-regression fits and scipy's `nquad`
quadrature) are out of scope for the repository and are modelled as an
abstract environment `Env` of evaluation functions; the fitted model objects
record the arguments they were fitted with (training data, type tags,
bandwidth-selection rule), mirroring the statsmodels model objects, together
with an abstract evaluation function drawn from the environment.

Python exceptions (KeyError from dict/column lookups, AttributeError from
missing attributes, ValueError from overlapping joins) become
`Except String` errors carrying the exception class name.  pandas single-row
DataFrames become association lists `Row`; the samples table becomes a list
of named columns `Table`.  Rational numbers stand in for Python floats,
except in the entropy integrand where `0 * log 0` produces an IEEE NaN;
there a dedicated `PyFloat` type models numpy's nan/inf semantics.
-/

namespace CausalReg

/-- Variable type tags: `c` = continuous, `o` = ordered discrete,
`u` = unordered discrete (the `'c'`/`'o'`/`'u'` strings of the source). -/
inductive VarType
  | c
  | o
  | u
deriving DecidableEq, Repr

/-- `var_type in ['o', 'u']` (source line 58). -/
def VarType.isDiscrete : VarType → Bool
  | .o => true
  | .u => true
  | .c => false

/-- `var_type == 'c'` (source line 60). -/
def VarType.isContinuous : VarType → Bool
  | .c => true
  | _ => false

/-- A single-row DataFrame / dict: association list from column name to value. -/
abbrev Row := List (String × ℚ)

/-- The observational sample: named columns of rationals. -/
abbrev Table := List (String × List ℚ)

/-- Association-list lookup (dict / DataFrame column access), first match wins. -/
def alookup {α : Type} : List (String × α) → String → Option α
  | [], _ => none
  | (k2, v) :: rest, k => if k2 = k then some v else alookup rest k

/-- Lookup that raises `KeyError` when the key is absent, as Python dict /
pandas column access does. -/
def lookupE {α : Type} (m : List (String × α)) (k : String) : Except String α :=
  match alookup m k with
  | some v => Except.ok v
  | none => Except.error "KeyError"

/-- `x[cols]`: select the named columns of a single-row frame, in the given
order; missing columns raise `KeyError`. -/
def selectRow (x : Row) (cols : List String) : Except String Row :=
  cols.mapM (fun c =>
    match alookup x c with
    | some v => Except.ok (c, v)
    | none => Except.error "KeyError")

/-- `.values[0]` of a single-row frame: its values in column order. -/
def rowVals (r : Row) : List ℚ := r.map (·.2)

/-- Values of the named columns of a row (`0` default is never reached in the
theorems below, where the lookups are known to succeed). -/
def selectVals (x : Row) (cols : List String) : List ℚ :=
  cols.map (fun c => (alookup x c).getD 0)

/-- `a.join(b)` on single-row frames: pandas raises `ValueError` when the
column sets overlap, otherwise concatenates the columns. -/
def joinRow (a b : Row) : Except String Row :=
  if a.any (fun p => (alookup b p.1).isSome) then Except.error "ValueError"
  else Except.ok (a ++ b)

/-- `pd.DataFrame({k : [v] for k, v in zip(ks, vs)})` as a single row.  The
column order is taken to be the zip order (Python 2 dict ordering is
implementation-defined; no claim below depends on it) and the keys are
distinct wherever the function is used in the proofs. -/
def dfRow (ks : List String) (vs : List ℚ) : Row := ks.zip vs

/-- `column.min()`.  pandas yields NaN on an empty column; the `0` default is
a modelling placeholder never exercised (all sample columns in scope are
non-empty). -/
def listMin : List ℚ → ℚ
  | [] => 0
  | h :: t => t.foldl min h

/-- `column.max()` (same caveat as `listMin`). -/
def listMax : List ℚ → ℚ
  | [] => 0
  | h :: t => t.foldl max h

/-- Python `int()` on a float: truncation toward zero. -/
def pyInt (q : ℚ) : Int := if q < 0 then q.ceil else q.floor

/-- `xrange(a, b)`: the integers `a, a+1, ..., b-1`. -/
def intRange (a b : Int) : List Int :=
  (List.range (b - a).toNat).map (fun i => a + i)

/-- `itertools.product(*ls)` in the same (outer-first) order. -/
def cartProd {α : Type} : List (List α) → List (List α)
  | [] => [[]]
  | l :: ls => l.flatMap (fun v => (cartProd ls).map (fun t => v :: t))

/-- A fitted `KDEMultivariate` marginal density: records the fit inputs
(training columns, type tags, bandwidth rule) and its evaluation function
`pdf(data_predict=·)`. -/
structure KDEMultivariate where
  data : List (List ℚ)
  var_type : List VarType
  bw_rule : String
  pdfFun : List ℚ → ℚ

/-- A fitted `KDEMultivariateConditional` density: fit inputs, the fitted
bandwidth vector `bw` (ordered dep types then indep types, as statsmodels
exposes it), and `pdf(exog_predict=·, endog_predict=·)`. -/
structure KDEMultivariateConditional where
  endog : List (List ℚ)
  exog : List (List ℚ)
  dep_type : List VarType
  indep_type : List VarType
  bw_rule : String
  bw : List ℚ
  pdfFun : List ℚ → List ℚ → ℚ

/-- A fitted `KernelReg` conditional-expectation model: fit inputs and
`fit(data_predict=·)[0]`. -/
structure KernelReg where
  endog : List (List ℚ)
  exog : List (List ℚ)
  var_type : List VarType
  bw_rule : String
  fitFun : List ℚ → ℚ

/-- IEEE-754 style values produced by numpy in the entropy integrand:
finite, +inf, -inf, NaN. -/
inductive PyFloat
  | fin (q : ℚ)
  | inf
  | ninf
  | nan
deriving DecidableEq, Repr

/-- numpy multiplication on `PyFloat` (`0 * inf = nan`, `nan` absorbs). -/
def pyMul : PyFloat → PyFloat → PyFloat
  | .nan, _ => .nan
  | _, .nan => .nan
  | .fin a, .fin b => .fin (a * b)
  | .fin a, .inf => if a = 0 then .nan else if 0 < a then .inf else .ninf
  | .fin a, .ninf => if a = 0 then .nan else if 0 < a then .ninf else .inf
  | .inf, .fin a => if a = 0 then .nan else if 0 < a then .inf else .ninf
  | .ninf, .fin a => if a = 0 then .nan else if 0 < a then .ninf else .inf
  | .inf, .inf => .inf
  | .inf, .ninf => .ninf
  | .ninf, .inf => .ninf
  | .ninf, .ninf => .inf

/-- numpy negation on `PyFloat`. -/
def pyNeg : PyFloat → PyFloat
  | .fin a => .fin (-a)
  | .inf => .ninf
  | .ninf => .inf
  | .nan => .nan

/-- numpy addition on `PyFloat` (`inf + (-inf) = nan`, `nan` absorbs). -/
def pyAdd : PyFloat → PyFloat → PyFloat
  | .nan, _ => .nan
  | _, .nan => .nan
  | .fin a, .fin b => .fin (a + b)
  | .fin _, .inf => .inf
  | .inf, .fin _ => .inf
  | .fin _, .ninf => .ninf
  | .ninf, .fin _ => .ninf
  | .inf, .inf => .inf
  | .ninf, .ninf => .ninf
  | .inf, .ninf => .nan
  | .ninf, .inf => .nan

/-- numpy subtraction on `PyFloat`. -/
def pySub (a b : PyFloat) : PyFloat := pyAdd a (pyNeg b)

/-- The external collaborators (statsmodels fits, scipy quadrature, numpy
log): abstract evaluation behaviour supplied by the environment.  `logPos`
gives the (irrational in general, here abstracted) value of `np.log` at a
positive rational; `nquadPy` is the quadrature used on the `PyFloat`-valued
entropy integrand. -/
structure Env where
  kdePdf : List (List ℚ) → List VarType → String → List ℚ → ℚ
  kdeCondPdf : List (List ℚ) → List (List ℚ) → List VarType → List VarType → String →
    List ℚ → List ℚ → ℚ
  kdeCondBw : List (List ℚ) → List (List ℚ) → List VarType → List VarType → String → List ℚ
  kregFit : List (List ℚ) → List (List ℚ) → List VarType → String → List ℚ → ℚ
  nquadPy : (List ℚ → Except String PyFloat) → List (ℚ × ℚ) → Except String PyFloat
  logPos : ℚ → ℚ

/-- `np.log` on a scalar: `-inf` at `0`, NaN on negatives, abstract finite
value on positives. -/
def npLog (env : Env) (q : ℚ) : PyFloat :=
  if q = 0 then PyFloat.ninf else if q < 0 then PyFloat.nan else PyFloat.fin (env.logPos q)

/-- scipy's `nquad(f, ranges, args=args)`: calls the integrand on quadrature
points extended by the fixed `args`, returning the integral value (the `[0]`
component) or propagating an exception raised by the integrand. -/
abbrev Nquad := (List ℚ → Except String ℚ) → List (ℚ × ℚ) → List ℚ → Except String ℚ

/-- The `CausalEffect` object: every Python instance attribute becomes a
field.  The `x1`/`x2`/`mi_*`/`*_integration_density` fields are the
attributes assigned by `biased_mutual_information`; they are absent
(`none`) until that method runs. -/
structure CausalEffect where
  causes : List String
  effects : List String
  admissable_set : List String
  conditional_density_vars : List String
  variable_types : List (String × VarType)
  density : Option KDEMultivariate
  conditional_density : KDEMultivariateConditional
  conditional_expectation : Option KernelReg
  support : List (String × (ℚ × ℚ))
  discrete_variables : List String
  continuous_variables : List String
  discrete_Z : List String
  continuous_Z : List String
  x1 : Option String
  x2 : Option String
  mi_density : Option KDEMultivariate
  mi_conditional_density : Option KDEMultivariateConditional
  x1_integration_density : Option KDEMultivariate
  integration_density : Option KDEMultivariate
  cond_integration_density : Option KDEMultivariateConditional

/-- Lines 34-37: the bandwidth-selection rule used by `__init__`, computed
from a list of type tags (`'c' not in ...` membership test). -/
def bwRuleFor (ts : List VarType) : String :=
  if VarType.c ∈ ts then "normal_reference" else "cv_ml"

/-- `__get_support` (lines 71-86): empirical (min, max) per variable,
expanded by 10 bandwidths on each side for continuous variables; the
bandwidths come from zipping `effects + conditional_density_vars` with the
conditional density's fitted bandwidth vector. -/
def get_support (X : Table) (variable_types : List (String × VarType))
    (effects conditional_density_vars : List String) (bwVec : List ℚ) :
    Except String (List (String × (ℚ × ℚ))) :=
  let data_support := X.map (fun c => (c.1, (listMin c.2, listMax c.2)))
  let variable_bandwidths := (effects ++ conditional_density_vars).zip bwVec
  (effects ++ conditional_density_vars).mapM (fun v => do
    let t ← lookupE variable_types v
    let ds ← lookupE data_support v
    if t = VarType.c then do
      let bw ← lookupE variable_bandwidths v
      pure (v, (ds.1 - 10 * bw, ds.2 + 10 * bw))
    else
      pure (v, ds))

/-- `CausalEffect.__init__` (lines 9-61).  `densityFlag` is the constructor's
unused `density` parameter (its use is commented out in the source).  An
empty/falsy `variable_types` drives the source into `__infer_variable_types`,
which returns `None` and makes line 34 raise `AttributeError`.  All other
failures are `KeyError`s from dict or column lookups.  No validation of
disjointness or membership is performed, exactly as in the source. -/
def CausalEffect.construct (env : Env) (X : Table)
    (causes effects admissable_set : List String)
    (variable_types : List (String × VarType))
    (expectation densityFlag : Bool) : Except String CausalEffect :=
  let conditional_density_vars := causes ++ admissable_set
  if variable_types.isEmpty then Except.error "AttributeError"
  else do
    let dep_type ← effects.mapM (lookupE variable_types)
    let indep_type ← conditional_density_vars.mapM (lookupE variable_types)
    let density_types ← admissable_set.mapM (lookupE variable_types)
    let bw := bwRuleFor (variable_types.map (·.2))
    let density ←
      if admissable_set.isEmpty then pure (Option.none (α := KDEMultivariate))
      else do
        let cols ← admissable_set.mapM (lookupE X)
        pure (some { data := cols, var_type := density_types, bw_rule := bw,
                     pdfFun := env.kdePdf cols density_types bw })
    let endog ← effects.mapM (lookupE X)
    let exog ← conditional_density_vars.mapM (lookupE X)
    let conditional_density : KDEMultivariateConditional :=
      { endog := endog, exog := exog, dep_type := dep_type, indep_type := indep_type,
        bw_rule := bw, bw := env.kdeCondBw endog exog dep_type indep_type bw,
        pdfFun := env.kdeCondPdf endog exog dep_type indep_type bw }
    let conditional_expectation : Option KernelReg :=
      if expectation then
        some { endog := endog, exog := exog, var_type := indep_type, bw_rule := "cv_ls",
               fitFun := env.kregFit endog exog indep_type "cv_ls" }
      else none
    let support ← get_support X variable_types effects conditional_density_vars
      conditional_density.bw
    let discrete_variables : List String :=
      (variable_types.filter (fun p => p.2.isDiscrete)).map (·.1)
    let continuous_variables : List String :=
      (variable_types.filter (fun p => p.2.isContinuous)).map (·.1)
    let discrete_Z := admissable_set.filter (fun v => decide (v ∈ discrete_variables))
    let continuous_Z := admissable_set.filter (fun v => decide (v ∈ continuous_variables))
    pure { causes := causes, effects := effects, admissable_set := admissable_set,
           conditional_density_vars := conditional_density_vars,
           variable_types := variable_types, density := density,
           conditional_density := conditional_density,
           conditional_expectation := conditional_expectation, support := support,
           discrete_variables := discrete_variables,
           continuous_variables := continuous_variables,
           discrete_Z := discrete_Z, continuous_Z := continuous_Z,
           x1 := none, x2 := none, mi_density := none, mi_conditional_density := none,
           x1_integration_density := none, integration_density := none,
           cond_integration_density := none }

/-- `integration_function` (lines 143-149): the joint integrand
conditional-density × marginal-density; `args` is a continuous-Z point
followed by the discrete-Z point and the `causes`/`effects` values. -/
def CausalEffect.integration_function (e : CausalEffect) (args : List ℚ) :
    Except String ℚ := do
  let data := dfRow (e.continuous_Z ++ e.discrete_Z ++ e.causes ++ e.effects) args
  let exogRow ← selectRow data e.conditional_density_vars
  let endogRow ← selectRow data e.effects
  let conditional := e.conditional_density.pdfFun (rowVals exogRow) (rowVals endogRow)
  match e.density with
  | none => Except.error "AttributeError"
  | some d => do
    let zRow ← selectRow data e.admissable_set
    pure (conditional * d.pdfFun (rowVals zRow))

/-- `expectation_integration_function` (lines 152-156): conditional
expectation × marginal density. -/
def CausalEffect.expectation_integration_function (e : CausalEffect) (args : List ℚ) :
    Except String ℚ := do
  let data := dfRow (e.continuous_Z ++ e.discrete_Z ++ e.causes) args
  let exogRow ← selectRow data e.conditional_density_vars
  match e.conditional_expectation with
  | none => Except.error "AttributeError"
  | some k =>
    match e.density with
    | none => Except.error "AttributeError"
    | some d => do
      let zRow ← selectRow data e.admissable_set
      pure (k.fitFun (rowVals exogRow) * d.pdfFun (rowVals zRow))

/-- `pdf` (lines 159-195): four-way dispatch on the partition of the
admissible set into discrete and continuous confounders. -/
def CausalEffect.pdf (nquad : Nquad) (e : CausalEffect) (x0 : Row) :
    Except String ℚ := do
  let x ← selectRow x0 (e.causes ++ e.effects)
  if e.discrete_Z ≠ [] then do
    let discrete_variable_ranges ← e.discrete_Z.mapM (fun v => do
      let s ← lookupE e.support v
      pure ((intRange (pyInt s.1) (pyInt s.2 + 1)).map (fun z => (z : ℚ))))
    (cartProd discrete_variable_ranges).foldlM (fun causal_effect z_vals => do
      let z_discrete := dfRow e.discrete_Z z_vals
      if e.continuous_Z ≠ [] then do
        let continuous_Z_ranges ← e.continuous_Z.mapM (lookupE e.support)
        let joined ← joinRow z_discrete x
        let r ← nquad e.integration_function continuous_Z_ranges (rowVals joined)
        pure (causal_effect + r)
      else do
        let z_sel ← selectRow z_discrete e.admissable_set
        let joined ← joinRow x z_sel
        let exog_predictors ← selectRow joined e.conditional_density_vars
        let endogRow ← selectRow x e.effects
        let conditional :=
          e.conditional_density.pdfFun (rowVals exog_predictors) (rowVals endogRow)
        match e.density with
        | none => Except.error "AttributeError"
        | some d => pure (causal_effect + conditional * d.pdfFun (rowVals z_sel)))
      0
  else if e.continuous_Z ≠ [] then do
    let continuous_Z_ranges ← e.continuous_Z.mapM (lookupE e.support)
    nquad e.integration_function continuous_Z_ranges (rowVals x)
  else do
    let exogRow ← selectRow x e.causes
    let endogRow ← selectRow x e.effects
    pure (e.conditional_density.pdfFun (rowVals exogRow) (rowVals endogRow))

/-- `expected_value` (lines 199-231): same dispatch as `pdf` with the
conditional expectation in place of the conditional density, and the query
projected to the `causes` columns only. -/
def CausalEffect.expected_value (nquad : Nquad) (e : CausalEffect) (x0 : Row) :
    Except String ℚ := do
  let x ← selectRow x0 e.causes
  if e.discrete_Z ≠ [] then do
    let discrete_variable_ranges ← e.discrete_Z.mapM (fun v => do
      let s ← lookupE e.support v
      pure ((intRange (pyInt s.1) (pyInt s.2 + 1)).map (fun z => (z : ℚ))))
    (cartProd discrete_variable_ranges).foldlM (fun causal_effect z_vals => do
      let z_discrete := dfRow e.discrete_Z z_vals
      if e.continuous_Z ≠ [] then do
        let continuous_Z_ranges ← e.continuous_Z.mapM (lookupE e.support)
        let joined ← joinRow z_discrete x
        let r ← nquad e.expectation_integration_function continuous_Z_ranges
          (rowVals joined)
        pure (causal_effect + r)
      else do
        let z_sel ← selectRow z_discrete e.admissable_set
        let joined ← joinRow x z_sel
        let exog_predictors ← selectRow joined e.conditional_density_vars
        match e.conditional_expectation with
        | none => Except.error "AttributeError"
        | some k =>
          match e.density with
          | none => Except.error "AttributeError"
          | some d =>
            pure (causal_effect + k.fitFun (rowVals exog_predictors) *
              d.pdfFun (rowVals z_sel)))
      0
  else if e.continuous_Z ≠ [] then do
    let continuous_Z_ranges ← e.continuous_Z.mapM (lookupE e.support)
    nquad e.expectation_integration_function continuous_Z_ranges (rowVals x)
  else do
    let exogRow ← selectRow x e.causes
    match e.conditional_expectation with
    | none => Except.error "AttributeError"
    | some k => pure (k.fitFun (rowVals exogRow))

/-- `entropy_integration_function` (lines 125-139): the shared entropy
integrand.  With two coordinates it evaluates
`- p(x1) * p(x2|x1) * log p(x2|x1)` using the densities stashed on the
estimator by `biased_mutual_information`; with one coordinate,
`- p(x2) * log p(x2)`.  Any other arity raises the source's
`Exception("Too few args in entropy integration")`.  numpy arithmetic is
used, so a zero density gives `log 0 = -inf` and `0 * -inf = NaN` rather
than an exception. -/
def CausalEffect.entropy_integration_function (env : Env) (e : CausalEffect)
    (args : List ℚ) : Except String PyFloat :=
  match args with
  | [a1, a2] =>
    match e.x1, e.x2, e.cond_integration_density, e.x1_integration_density with
    | some x1, some x2, some cd, some xd => do
      let data := dfRow [x1, x2] [a1, a2]
      let v1 ← lookupE data x1
      let v2 ← lookupE data x2
      let p := cd.pdfFun [v1] [v2]
      pure (pyMul (PyFloat.fin (-(xd.pdfFun [v1]) * p)) (npLog env p))
    | _, _, _, _ => Except.error "AttributeError"
  | [a2] =>
    match e.x2, e.integration_density with
    | some x2, some idens => do
      let data := dfRow [x2] [a2]
      let v2 ← lookupE data x2
      let p := idens.pdfFun [v2]
      pure (pyMul (PyFloat.fin (-p)) (npLog env p))
    | _, _ => Except.error "AttributeError"
  | _ => Except.error "Exception: Too few args in entropy integration"

/-- `biased_mutual_information` (lines 88-123).  Note the source's swapped
type tags (`dep_type` read from `x1`, `indep_type` from `x2`) and that
`x1_integration_density` is fitted on `X[[x2]]`; the embedding reproduces
both verbatim.  The per-call fits and `x1`/`x2` are assigned onto the
estimator (`self.…`), so the method returns the updated estimator together
with `H(x2) - H(x2|x1)`.  (In the source the `self.x1`/`self.x2` assignments
precede the fallible lookups, so a failing call has already mutated those
two fields; the embedding surfaces state only on success, which no claim
distinguishes.  The two `print` statements are I/O-free no-ops here.) -/
def CausalEffect.biased_mutual_information (env : Env) (e : CausalEffect)
    (X : Table) (x1 x2 : String) : Except String (CausalEffect × PyFloat) := do
  let t1 ← lookupE e.variable_types x1
  let t2 ← lookupE e.variable_types x2
  let dep_type := [t1]
  let indep_type := [t2]
  let density_types := [t1, t2]
  let bw := bwRuleFor density_types
  let colx2 ← lookupE X x2
  let colx1 ← lookupE X x1
  let mi_density : KDEMultivariate :=
    { data := [colx2], var_type := dep_type, bw_rule := bw,
      pdfFun := env.kdePdf [colx2] dep_type bw }
  let mi_conditional_density : KDEMultivariateConditional :=
    { endog := [colx2], exog := [colx1], dep_type := dep_type,
      indep_type := indep_type, bw_rule := bw,
      bw := env.kdeCondBw [colx2] [colx1] dep_type indep_type bw,
      pdfFun := env.kdeCondPdf [colx2] [colx1] dep_type indep_type bw }
  let x1_integration_density : KDEMultivariate :=
    { data := [colx2], var_type := dep_type, bw_rule := bw,
      pdfFun := env.kdePdf [colx2] dep_type bw }
  let sx2 ← lookupE e.support x2
  let e' : CausalEffect :=
    { e with x1 := some x1, x2 := some x2, mi_density := some mi_density,
             mi_conditional_density := some mi_conditional_density,
             x1_integration_density := some x1_integration_density,
             integration_density := some mi_density,
             cond_integration_density := some mi_conditional_density }
  let Hx2 ← env.nquadPy (e'.entropy_integration_function env) [sx2]
  let sx1 ← lookupE e.support x1
  let Hx2givenx1 ← env.nquadPy (e'.entropy_integration_function env) [sx1, sx2]
  pure (e', pySub Hx2 Hx2givenx1)

/-! ### Concrete instantiations used for witnesses and counterexamples -/

/-- A benign collaborator environment: every density/regression evaluates to
`1`, the fitted bandwidth vector is all ones, quadrature returns `0`. -/
def trivEnv : Env where
  kdePdf := fun _ _ _ _ => 1
  kdeCondPdf := fun _ _ _ _ _ _ _ => 1
  kdeCondBw := fun _ _ _ _ _ => [1, 1, 1, 1, 1, 1]
  kregFit := fun _ _ _ _ => 1
  nquadPy := fun _ _ => Except.ok (PyFloat.fin 0)
  logPos := fun _ => 0

/-- A trivial quadrature routine returning `0` for every integral. -/
def trivNquad : Nquad := fun _ _ _ => Except.ok 0

/-- An environment whose fitted densities evaluate to exactly `0`
everywhere (e.g. numerically underflowed kernel tails), and whose
quadrature samples the integrand at the lower corner of the box. -/
def zeroEnv : Env where
  kdePdf := fun _ _ _ _ => 0
  kdeCondPdf := fun _ _ _ _ _ _ _ => 0
  kdeCondBw := fun _ _ _ _ _ => [1, 1, 1, 1, 1, 1]
  kregFit := fun _ _ _ _ => 0
  nquadPy := fun f ranges => f (ranges.map (·.1))
  logPos := fun _ => 0

/-- Placeholder conditional-density model (for `Option.getD`; never the
result of a successful construction in the theorems below). -/
def defKDEC : KDEMultivariateConditional :=
  { endog := [], exog := [], dep_type := [], indep_type := [], bw_rule := "",
    bw := [], pdfFun := fun _ _ => 0 }

/-- Placeholder marginal-density model. -/
def defKDE : KDEMultivariate :=
  { data := [], var_type := [], bw_rule := "", pdfFun := fun _ => 0 }

/-- Placeholder regression model. -/
def defKR : KernelReg :=
  { endog := [], exog := [], var_type := [], bw_rule := "", fitFun := fun _ => 0 }

/-- Placeholder estimator (for `Option.getD`). -/
def defCE : CausalEffect :=
  { causes := [], effects := [], admissable_set := [],
    conditional_density_vars := [], variable_types := [], density := none,
    conditional_density := defKDEC, conditional_expectation := none,
    support := [], discrete_variables := [], continuous_variables := [],
    discrete_Z := [], continuous_Z := [], x1 := none, x2 := none,
    mi_density := none, mi_conditional_density := none,
    x1_integration_density := none, integration_density := none,
    cond_integration_density := none }

/-- Extract the estimator from a successful construction. -/
def okD (r : Except String CausalEffect) : CausalEffect :=
  match r with
  | Except.ok e => e
  | Except.error _ => defCE

/-- Sample for the all-discrete scenario: confounder `z` ranges over
`{0, 1}`. -/
def XD : Table := [("x", [0]), ("y", [0]), ("z", [0, 1])]

/-- All three variables ordered-discrete. -/
def tsD : List (String × VarType) := [("x", VarType.o), ("y", VarType.o), ("z", VarType.o)]

/-- Estimator with causes `x`, effects `y`, all-discrete admissible set `z`. -/
def eD : CausalEffect :=
  okD (CausalEffect.construct trivEnv XD ["x"] ["y"] ["z"] tsD false true)

/-- The marginal density of `eD`. -/
def dD : KDEMultivariate := eD.density.getD defKDE

/-- Query row for `eD`. -/
def xD : Row := [("x", 0), ("y", 0)]

/-- Two-variable continuous sample. -/
def XE : Table := [("x", [1, 2]), ("y", [3, 4])]

/-- Both variables continuous. -/
def tsE : List (String × VarType) := [("x", VarType.c), ("y", VarType.c)]

/-- Estimator with empty admissible set and expectation model. -/
def eE : CausalEffect :=
  okD (CausalEffect.construct trivEnv XE ["x"] ["y"] [] tsE true true)

/-- The expectation model of `eE`. -/
def kE : KernelReg := eE.conditional_expectation.getD defKR

/-- Query row for `eE`. -/
def xE : Row := [("x", 1), ("y", 3)]

/-- Type registry for the bandwidth-rule counterexample: a continuous
variable `x` that enters none of the fitted models. -/
def tsC4 : List (String × VarType) := [("x", VarType.c), ("y", VarType.o), ("z", VarType.o)]

/-- Sample for the bandwidth-rule counterexample (only `y`, `z` used). -/
def XC4 : Table := [("y", [0]), ("z", [0])]

/-- Sample for the overlap counterexample. -/
def X6 : Table := [("a", [1, 2])]

/-- Types for the overlap counterexample. -/
def ts6 : List (String × VarType) := [("a", VarType.c)]

/-- Sample for the mutual-information scenarios. -/
def X7 : Table := [("a", [1, 2]), ("b", [5, 6])]

/-- `a` continuous, `b` ordered-discrete: the two mutual-information
variables carry distinct type tags. -/
def ts7 : List (String × VarType) := [("a", VarType.c), ("b", VarType.o)]

/-- Estimator over `X7` used to invoke `biased_mutual_information`. -/
def e7 : CausalEffect :=
  okD (CausalEffect.construct trivEnv X7 ["a"] ["b"] [] ts7 false true)

/-- Both variables continuous, single observation at 0 (for the zero-density
entropy scenario). -/
def XZ : Table := [("a", [0]), ("b", [0])]

/-- Types for the zero-density entropy scenario. -/
def tsZ : List (String × VarType) := [("a", VarType.c), ("b", VarType.c)]

/-- The estimator state after calling `biased_mutual_information` on `e7`. -/
def e7mi : CausalEffect :=
  match e7.biased_mutual_information trivEnv X7 "a" "b" with
  | Except.ok p => p.1
  | Except.error _ => defCE

/-- The value returned by that `biased_mutual_information` call. -/
def r7mi : PyFloat :=
  match e7.biased_mutual_information trivEnv X7 "a" "b" with
  | Except.ok p => p.2
  | Except.error _ => PyFloat.nan

/-- Support formula as the specification words it (§4.2): per variable, the
empirical (min, max) of its sample column; a continuous variable's bounds are
expanded by 10 × its bandwidth, the bandwidth read by zipping the variable
list (effects, then causes + admissible set) with the conditional density's
fitted bandwidth vector; a discrete variable's bounds are unmodified. -/
def supportSpec (X : Table) (ts : List (String × VarType)) (vars : List String)
    (bwVec : List ℚ) (v : String) : Option (ℚ × ℚ) :=
  match alookup X v, alookup ts v with
  | some col, some t =>
    if t = VarType.c then
      match alookup (vars.zip bwVec) v with
      | some bwv => some (listMin col - 10 * bwv, listMax col + 10 * bwv)
      | none => none
    else some (listMin col, listMax col)
  | _, _ => none

/-! ### Helper lemmas -/

theorem ebind_ok {α β : Type} (a : α) (f : α → Except String β) :
    (Except.ok a >>= f) = f a := rfl

theorem ebind_err {α β : Type} (s : String) (f : α → Except String β) :
    ((Except.error s : Except String α) >>= f) = Except.error s := rfl

theorem epure_eq {α : Type} (a : α) : (pure a : Except String α) = Except.ok a := rfl

theorem alookup_map_value {α β : Type} (X : List (String × α)) (g : α → β) (v : String) :
    alookup (X.map (fun c => (c.1, g c.2))) v = (alookup X v).map g := by
  induction X with
  | nil => rfl
  | cons hd tl ih =>
    simp only [List.map_cons, alookup]
    by_cases hk : hd.1 = v
    · simp [hk]
    · simp [hk, ih]

theorem alookup_eq_none_of_not_mem {α : Type} (m : List (String × α)) (k : String)
    (h : k ∉ m.map (·.1)) : alookup m k = none := by
  induction m with
  | nil => rfl
  | cons hd tl ih =>
    simp only [List.map_cons, List.mem_cons] at h
    push_neg at h
    simp only [alookup]
    rw [if_neg (fun hk => h.1 hk.symm)]
    exact ih h.2

theorem alookup_isSome_of_mem {α : Type} (m : List (String × α)) (k : String)
    (h : k ∈ m.map (·.1)) : (alookup m k).isSome := by
  induction m with
  | nil => simp at h
  | cons hd tl ih =>
    simp only [List.map_cons, List.mem_cons] at h
    simp only [alookup]
    by_cases hk : hd.1 = k
    · simp [hk]
    · rcases h with h | h
      · exact absurd h.symm hk
      · simp [hk, ih h]

theorem alookup_append_left {α : Type} (a b : List (String × α)) (k : String)
    (h : (alookup a k).isSome) : alookup (a ++ b) k = alookup a k := by
  induction a with
  | nil => simp [alookup] at h
  | cons hd tl ih =>
    simp only [List.cons_append, alookup] at *
    by_cases hk : hd.1 = k
    · simp [hk]
    · simp only [hk, if_false] at h ⊢
      exact ih h

theorem alookup_append_right {α : Type} (a b : List (String × α)) (k : String)
    (h : alookup a k = none) : alookup (a ++ b) k = alookup b k := by
  induction a with
  | nil => rfl
  | cons hd tl ih =>
    simp only [List.cons_append, alookup] at *
    by_cases hk : hd.1 = k
    · simp [hk] at h
    · simp only [hk, if_false] at h ⊢
      exact ih h

theorem alookup_graph {α : Type} (cols : List String) (g : String → α) (v : String) :
    alookup (cols.map (fun c => (c, g c))) v =
      if v ∈ cols then some (g v) else none := by
  induction cols with
  | nil => rfl
  | cons hd tl ih =>
    simp only [List.map_cons, alookup, List.mem_cons]
    by_cases hk : hd = v
    · simp [hk]
    · simp only [hk, if_false, ih]
      by_cases hm : v ∈ tl
      · simp [hm, Ne.symm hk]
      · simp [hm, Ne.symm hk]

theorem selectRow_ok_of (x : Row) (cols : List String)
    (h : ∀ c ∈ cols, (alookup x c).isSome) :
    selectRow x cols = Except.ok (cols.map (fun c => (c, (alookup x c).getD 0))) := by
  induction cols with
  | nil => rfl
  | cons hd tl ih =>
    have hhd := h hd (List.mem_cons_self hd tl)
    obtain ⟨v, hv⟩ := Option.isSome_iff_exists.mp hhd
    simp only [selectRow, List.mapM_cons] at *
    rw [hv]
    simp only [ebind_ok]
    have := ih (fun c hc => h c (List.mem_cons_of_mem hd hc))
    simp only [selectRow] at this
    rw [this]
    simp [ebind_ok, epure_eq, hv]

theorem selectRow_ok_inv (x : Row) (cols : List String) (r : Row)
    (h : selectRow x cols = Except.ok r) :
    (∀ c ∈ cols, (alookup x c).isSome) ∧
      r = cols.map (fun c => (c, (alookup x c).getD 0)) := by
  induction cols generalizing r with
  | nil =>
    simp only [selectRow, List.mapM_nil, epure_eq] at h
    cases h
    exact ⟨by simp, rfl⟩
  | cons hd tl ih =>
    simp only [selectRow, List.mapM_cons] at h
    cases hv : alookup x hd with
    | none => rw [hv] at h; exact Except.noConfusion h
    | some v =>
      rw [hv] at h
      simp only [ebind_ok] at h
      cases htl : tl.mapM (fun c => match alookup x c with
        | some v => Except.ok (c, v)
        | none => Except.error "KeyError") with
      | error s => rw [htl] at h; exact Except.noConfusion h
      | ok rs =>
        rw [htl] at h
        simp only [ebind_ok, epure_eq] at h
        cases h
        obtain ⟨h1, h2⟩ := ih rs htl
        refine ⟨?_, ?_⟩
        · intro c hc
          rcases List.mem_cons.mp hc with hc | hc
          · subst hc; simp [hv]
          · exact h1 c hc
        · simp [hv, h2]

theorem selectRow_congr (x x' : Row) (cols : List String)
    (h : ∀ c ∈ cols, alookup x c = alookup x' c) :
    selectRow x cols = selectRow x' cols := by
  induction cols with
  | nil => rfl
  | cons hd tl ih =>
    simp only [selectRow, List.mapM_cons]
    rw [h hd (List.mem_cons_self hd tl),
      show (tl.mapM (fun c => match alookup x c with
        | some v => Except.ok (c, v)
        | none => Except.error "KeyError") : Except String Row) =
        tl.mapM (fun c => match alookup x' c with
        | some v => Except.ok (c, v)
        | none => Except.error "KeyError") from
      ih (fun c hc => h c (List.mem_cons_of_mem hd hc))]

theorem mapM_ok_of_forall {α β : Type} (l : List α) (f : α → Except String β)
    (g : α → β) (h : ∀ a ∈ l, f a = Except.ok (g a)) :
    l.mapM f = Except.ok (l.map g) := by
  induction l with
  | nil => rfl
  | cons hd tl ih =>
    simp only [List.mapM_cons, h hd (List.mem_cons_self hd tl), ebind_ok]
    rw [ih (fun a ha => h a (List.mem_cons_of_mem hd ha))]
    rfl

theorem mapM_graph_lookup {β : Type} (f : String → Except String (String × β))
    (hf : ∀ v r, f v = Except.ok r → r.1 = v) (vars : List String)
    (sup : List (String × β)) (h : vars.mapM f = Except.ok sup) :
    ∀ v ∈ vars, ∃ b, f v = Except.ok (v, b) ∧ alookup sup v = some b := by
  induction vars generalizing sup with
  | nil => simp
  | cons hd tl ih =>
    simp only [List.mapM_cons] at h
    cases hh : f hd with
    | error s => rw [hh] at h; exact Except.noConfusion h
    | ok r =>
      obtain ⟨a, b⟩ := r
      have ha : a = hd := hf hd (a, b) hh
      subst ha
      rw [hh] at h
      simp only [ebind_ok] at h
      cases htl : tl.mapM f with
      | error s => rw [htl] at h; exact Except.noConfusion h
      | ok rs =>
        rw [htl] at h
        simp only [ebind_ok, epure_eq] at h
        cases h
        intro v hv
        by_cases hvh : v = a
        · subst hvh
          exact ⟨b, hh, by simp [alookup]⟩
        · rcases List.mem_cons.mp hv with hv | hv
          · exact absurd hv hvh
          · obtain ⟨c, hc1, hc2⟩ := ih rs htl v hv
            exact ⟨c, hc1, by simp [alookup, Ne.symm hvh, hc2]⟩

theorem zip_vals (ks : List String) (vs : List ℚ) (h : ks.length = vs.length) :
    rowVals (ks.zip vs) = vs := by
  induction ks generalizing vs with
  | nil => cases vs with
    | nil => rfl
    | cons v vt => simp at h
  | cons k kt ih =>
    cases vs with
    | nil => simp at h
    | cons v vt =>
      simp only [List.zip_cons_cons, rowVals, List.map_cons]
      have := ih vt (by simpa using h)
      simp only [rowVals] at this
      rw [this]

theorem alookup_zip_of_not_mem (ks : List String) (vs : List ℚ) (k : String)
    (h : k ∉ ks) : alookup (ks.zip vs) k = none := by
  induction ks generalizing vs with
  | nil => rfl
  | cons kh kt ih =>
    cases vs with
    | nil => rfl
    | cons v vt =>
      have h1 : kh ≠ k := fun hh => h (hh ▸ List.mem_cons_self kh kt)
      simp only [List.zip_cons_cons, alookup, h1, if_false]
      exact ih vt (fun hm => h (List.mem_cons_of_mem kh hm))

theorem selectRow_zip_self (ks : List String) (vs : List ℚ) (hn : ks.Nodup)
    (hl : ks.length = vs.length) :
    selectRow (ks.zip vs) ks = Except.ok (ks.zip vs) := by
  induction ks generalizing vs with
  | nil => rfl
  | cons k kt ih =>
    cases vs with
    | nil => simp at hl
    | cons v vt =>
      have hn1 : k ∉ kt := (List.nodup_cons.mp hn).1
      have hn2 : kt.Nodup := (List.nodup_cons.mp hn).2
      have hl2 : kt.length = vt.length := by simpa using hl
      have hcongr : selectRow ((k, v) :: kt.zip vt) kt = selectRow (kt.zip vt) kt := by
        apply selectRow_congr
        intro c hc
        have hkc : k ≠ c := fun hh => hn1 (hh ▸ hc)
        simp [alookup, hkc]
      have h2 : selectRow ((k, v) :: kt.zip vt) kt = Except.ok (kt.zip vt) :=
        hcongr.trans (ih vt hn2 hl2)
      have h1 : alookup ((k, v) :: kt.zip vt) k = some v := by simp [alookup]
      rw [List.zip_cons_cons, selectRow, List.mapM_cons, h1]
      rw [selectRow] at h2
      rw [h2]
      rfl

theorem cartProd_mem_length {α : Type} (ls : List (List α)) (zs : List α)
    (h : zs ∈ cartProd ls) : zs.length = ls.length := by
  induction ls generalizing zs with
  | nil =>
    simp only [cartProd, List.mem_singleton] at h
    simp [h]
  | cons l lt ih =>
    simp only [cartProd, List.mem_flatMap, List.mem_map] at h
    obtain ⟨v, _, t, ht, rfl⟩ := h
    simp [ih t ht]

theorem foldlM_acc_ok {α : Type} (l : List α) (t : α → ℚ)
    (step : ℚ → α → Except String ℚ)
    (h : ∀ acc a, a ∈ l → step acc a = Except.ok (acc + t a)) :
    ∀ init, l.foldlM step init = Except.ok (init + (l.map t).sum) := by
  induction l with
  | nil =>
    intro init
    rw [List.foldlM_nil, epure_eq]
    simp
  | cons hd tl ih =>
    intro init
    rw [List.foldlM_cons, h init hd (List.mem_cons_self hd tl), ebind_ok,
      ih (fun acc a ha => h acc a (List.mem_cons_of_mem hd ha))]
    congr 1
    simp [add_assoc]

theorem foldlM_nonneg {α : Type} (l : List α) (step : ℚ → α → Except String ℚ)
    (h : ∀ acc a r, a ∈ l → 0 ≤ acc → step acc a = Except.ok r → 0 ≤ r) :
    ∀ init r, 0 ≤ init → l.foldlM step init = Except.ok r → 0 ≤ r := by
  induction l with
  | nil =>
    intro init r h0 hr
    rw [List.foldlM_nil] at hr
    cases hr
    exact h0
  | cons hd tl ih =>
    intro init r h0 hr
    rw [List.foldlM_cons] at hr
    cases hs : step init hd with
    | error s => rw [hs, ebind_err] at hr; exact Except.noConfusion hr
    | ok acc1 =>
      rw [hs, ebind_ok] at hr
      exact ih (fun acc a rr ha => h acc a rr (List.mem_cons_of_mem hd ha)) acc1 r
        (h init hd acc1 (List.mem_cons_self hd tl) h0 hs) hr

theorem construct_fields (env : Env) (X : Table) (causes effects adm : List String)
    (ts : List (String × VarType)) (expectation densityFlag : Bool) (e : CausalEffect)
    (h : CausalEffect.construct env X causes effects adm ts expectation densityFlag =
      Except.ok e) :
    e.causes = causes ∧ e.effects = effects ∧ e.admissable_set = adm ∧
    e.conditional_density_vars = causes ++ adm ∧ e.variable_types = ts ∧
    e.discrete_Z = adm.filter (fun v =>
      decide (v ∈ (ts.filter (fun p => p.2.isDiscrete)).map (·.1))) ∧
    e.continuous_Z = adm.filter (fun v =>
      decide (v ∈ (ts.filter (fun p => p.2.isContinuous)).map (·.1))) ∧
    e.conditional_density.bw_rule = bwRuleFor (ts.map (·.2)) ∧
    (∀ d, e.density = some d → d.bw_rule = bwRuleFor (ts.map (·.2))) ∧
    (∀ k, e.conditional_expectation = some k → k.bw_rule = "cv_ls") ∧
    (adm = [] → e.density = none) ∧
    get_support X ts effects (causes ++ adm) e.conditional_density.bw =
      Except.ok e.support := by
  simp only [CausalEffect.construct] at h
  split at h
  · exact Except.noConfusion h
  cases h1 : effects.mapM (lookupE ts) with
  | error s => rw [h1, ebind_err] at h; exact Except.noConfusion h
  | ok dep_type =>
  rw [h1, ebind_ok] at h
  cases h2 : (causes ++ adm).mapM (lookupE ts) with
  | error s => rw [h2, ebind_err] at h; exact Except.noConfusion h
  | ok indep_type =>
  rw [h2, ebind_ok] at h
  cases h3 : adm.mapM (lookupE ts) with
  | error s => rw [h3, ebind_err] at h; exact Except.noConfusion h
  | ok density_types =>
  rw [h3, ebind_ok] at h
  by_cases ha : adm = []
  · subst ha
    simp only [List.isEmpty_nil, if_true, epure_eq, ebind_ok] at h
    cases h5 : effects.mapM (lookupE X) with
    | error s => rw [h5, ebind_err] at h; exact Except.noConfusion h
    | ok endog =>
    rw [h5, ebind_ok] at h
    cases h6 : (causes ++ ([] : List String)).mapM (lookupE X) with
    | error s => rw [h6, ebind_err] at h; exact Except.noConfusion h
    | ok exog =>
    rw [h6, ebind_ok] at h
    cases h7 : get_support X ts effects (causes ++ [])
      (env.kdeCondBw endog exog dep_type indep_type (bwRuleFor (ts.map (·.2)))) with
    | error s => rw [h7, ebind_err] at h; exact Except.noConfusion h
    | ok support =>
    rw [h7, ebind_ok] at h
    injection h with h
    subst h
    refine ⟨rfl, rfl, rfl, rfl, rfl, rfl, rfl, rfl, ?_, ?_, fun _ => rfl, h7⟩
    · intro d hd; exact Option.noConfusion hd
    · intro k hk
      rcases Bool.eq_false_or_eq_true expectation with hexp | hexp
      · rw [hexp, if_pos rfl] at hk
        injection hk with hk
        subst hk
        rfl
      · rw [hexp, if_neg Bool.false_ne_true] at hk
        exact Option.noConfusion hk
  · have hane : adm.isEmpty = false := by
      cases adm with
      | nil => exact absurd rfl ha
      | cons z zt => rfl
    rw [hane] at h
    simp only [Bool.false_eq_true, if_false] at h
    cases h4 : adm.mapM (lookupE X) with
    | error s => rw [h4, ebind_err] at h; exact Except.noConfusion h
    | ok cols =>
    rw [h4, ebind_ok, epure_eq, ebind_ok] at h
    cases h5 : effects.mapM (lookupE X) with
    | error s => rw [h5, ebind_err] at h; exact Except.noConfusion h
    | ok endog =>
    rw [h5, ebind_ok] at h
    cases h6 : (causes ++ adm).mapM (lookupE X) with
    | error s => rw [h6, ebind_err] at h; exact Except.noConfusion h
    | ok exog =>
    rw [h6, ebind_ok] at h
    cases h7 : get_support X ts effects (causes ++ adm)
      (env.kdeCondBw endog exog dep_type indep_type (bwRuleFor (ts.map (·.2)))) with
    | error s => rw [h7, ebind_err] at h; exact Except.noConfusion h
    | ok support =>
    rw [h7, ebind_ok, epure_eq] at h
    injection h with h
    subst h
    refine ⟨rfl, rfl, rfl, rfl, rfl, rfl, rfl, rfl, ?_, ?_, fun hnil => absurd hnil ha, h7⟩
    · intro d hd
      injection hd with hd
      subst hd
      rfl
    · intro k hk
      rcases Bool.eq_false_or_eq_true expectation with hexp | hexp
      · rw [hexp, if_pos rfl] at hk
        injection hk with hk
        subst hk
        rfl
      · rw [hexp, if_neg Bool.false_ne_true] at hk
        exact Option.noConfusion hk

theorem lookupE_eq_ok {α : Type} (m : List (String × α)) (k : String) (v : α)
    (hv : alookup m k = some v) : lookupE m k = Except.ok v := by
  simp [lookupE, hv]

theorem lookupE_eq_err {α : Type} (m : List (String × α)) (k : String)
    (hv : alookup m k = none) : lookupE m k = Except.error "KeyError" := by
  simp [lookupE, hv]

theorem lookupE_ok_inv {α : Type} (m : List (String × α)) (k : String) (v : α)
    (h : lookupE m k = Except.ok v) : alookup m k = some v := by
  cases hv : alookup m k with
  | none => rw [lookupE_eq_err m k hv] at h; exact Except.noConfusion h
  | some w =>
    rw [lookupE_eq_ok m k w hv] at h
    injection h with h
    subst h
    rfl

theorem bind_ok_inv {α β : Type} (m : Except String α) (f : α → Except String β)
    (r : β) (h : (m >>= f) = Except.ok r) :
    ∃ a, m = Except.ok a ∧ f a = Except.ok r := by
  cases m with
  | error s => rw [ebind_err] at h; exact Except.noConfusion h
  | ok a => rw [ebind_ok] at h; exact ⟨a, rfl, h⟩

theorem lookupE_bind_ok {α β : Type} (m : List (String × α)) (k : String)
    (f : α → Except String β) (r : β) (h : (lookupE m k >>= f) = Except.ok r) :
    ∃ v, alookup m k = some v ∧ f v = Except.ok r := by
  obtain ⟨a, ha, hf⟩ := bind_ok_inv _ _ _ h
  exact ⟨a, lookupE_ok_inv m k a ha, hf⟩

theorem joinRow_ok (a b : Row) (h : ∀ p ∈ a, alookup b p.1 = none) :
    joinRow a b = Except.ok (a ++ b) := by
  rw [joinRow, if_neg]
  intro hcon
  rw [List.any_eq_true] at hcon
  obtain ⟨p, hp, hps⟩ := hcon
  rw [h p hp] at hps
  simp at hps

theorem rowVals_graph (cols : List String) (g : String → ℚ) :
    rowVals (cols.map (fun c => (c, g c))) = cols.map g := by
  rw [rowVals, List.map_map]
  rfl

theorem selectRow_then (x : Row) (cols sub : List String)
    (hsub : ∀ c ∈ sub, c ∈ cols) :
    selectRow (cols.map (fun c => (c, (alookup x c).getD 0))) sub =
      Except.ok (sub.map (fun c => (c, (alookup x c).getD 0))) := by
  have hl : ∀ c ∈ sub,
      alookup (cols.map (fun c => (c, (alookup x c).getD 0))) c =
        some ((alookup x c).getD 0) := by
    intro c hc
    rw [alookup_graph]
    simp [hsub c hc]
  rw [selectRow_ok_of _ _ (fun c hc => by rw [hl c hc]; rfl)]
  congr 1
  apply List.map_congr_left
  intro c hc
  rw [hl c hc]
  rfl

theorem map_alookup_zip (ks : List String) (vs : List ℚ) (hn : ks.Nodup)
    (hl : ks.length = vs.length) :
    ks.map (fun v => (alookup (ks.zip vs) v).getD 0) = vs := by
  have h1 := selectRow_zip_self ks vs hn hl
  have h2 := (selectRow_ok_inv _ _ _ h1).2
  have h3 := congrArg rowVals h2
  rw [zip_vals ks vs hl, rowVals_graph] at h3
  exact h3.symm

theorem mem_keys_of_mem_filter_keys {α : Type} (l : List (String × α))
    (p : String × α → Bool) (v : String)
    (h : v ∈ (l.filter p).map (·.1)) : v ∈ l.map (·.1) := by
  simp only [List.mem_map] at h ⊢
  obtain ⟨a, ha, rfl⟩ := h
  exact ⟨a, List.mem_of_mem_filter ha, rfl⟩

theorem mem_filter_keys_of_lookup (ts : List (String × VarType)) (v : String)
    (t : VarType) (pred : VarType → Bool) (h : alookup ts v = some t)
    (hp : pred t = true) : v ∈ (ts.filter (fun p => pred p.2)).map (·.1) := by
  induction ts with
  | nil => simp [alookup] at h
  | cons hd tl ih =>
    simp only [alookup] at h
    by_cases hk : hd.1 = v
    · rw [if_pos hk] at h
      injection h with h
      subst h
      simp [List.filter_cons, hp, hk]
    · rw [if_neg hk] at h
      have := ih h
      rw [List.filter_cons]
      cases hpred : pred hd.2 <;> simp [this]

theorem not_mem_filter_keys_of_lookup (ts : List (String × VarType)) (v : String)
    (t : VarType) (pred : VarType → Bool) (hn : (ts.map (·.1)).Nodup)
    (h : alookup ts v = some t) (hp : pred t = false) :
    v ∉ (ts.filter (fun p => pred p.2)).map (·.1) := by
  induction ts with
  | nil => simp
  | cons hd tl ih =>
    simp only [alookup] at h
    simp only [List.map_cons, List.nodup_cons] at hn
    by_cases hk : hd.1 = v
    · rw [if_pos hk] at h
      injection h with h
      subst h
      intro hmem
      rw [List.filter_cons, if_neg (by simp [hp])] at hmem
      exact hn.1 (hk ▸ mem_keys_of_mem_filter_keys tl _ v hmem)
    · rw [if_neg hk] at h
      have := ih hn.2 h
      intro hmem
      rw [List.filter_cons] at hmem
      cases hpred : pred hd.2 with
      | false =>
        rw [if_neg (by simp [hpred])] at hmem
        exact this hmem
      | true =>
        rw [if_pos hpred, List.map_cons, List.mem_cons] at hmem
        cases hmem with
        | inl h1 => exact hk h1.symm
        | inr h2 => exact this h2

theorem get_support_elem (X : Table) (ts : List (String × VarType))
    (effects cdv : List String) (bwVec : List ℚ) (v : String) (r : String × (ℚ × ℚ))
    (h : (do
      let t ← lookupE ts v
      let ds ← lookupE (X.map (fun c => (c.1, (listMin c.2, listMax c.2)))) v
      if t = VarType.c then do
        let bw ← lookupE ((effects ++ cdv).zip bwVec) v
        pure (v, (ds.1 - 10 * bw, ds.2 + 10 * bw))
      else pure (v, ds)) = Except.ok r) :
    r.1 = v ∧ supportSpec X ts (effects ++ cdv) bwVec v = some r.2 := by
  obtain ⟨t, ht, h⟩ := lookupE_bind_ok _ _ _ _ h
  obtain ⟨ds, hds, h⟩ := lookupE_bind_ok _ _ _ _ h
  rw [alookup_map_value X (fun l => (listMin l, listMax l)) v] at hds
  cases hX : alookup X v with
  | none => rw [hX] at hds; exact Option.noConfusion hds
  | some col =>
    rw [hX] at hds
    injection hds with hds
    subst hds
    by_cases htc : t = VarType.c
    · rw [if_pos htc] at h
      obtain ⟨bwv, hbw, h⟩ := lookupE_bind_ok _ _ _ _ h
      rw [epure_eq] at h
      injection h with h
      subst h
      exact ⟨rfl, by simp [supportSpec, hX, ht, htc, hbw]⟩
    · rw [if_neg htc] at h
      rw [epure_eq] at h
      injection h with h
      subst h
      exact ⟨rfl, by simp [supportSpec, hX, ht, htc]⟩

theorem get_support_lookup (X : Table) (ts : List (String × VarType))
    (effects cdv : List String) (bwVec : List ℚ) (sup : List (String × (ℚ × ℚ)))
    (h : get_support X ts effects cdv bwVec = Except.ok sup) :
    ∀ v ∈ effects ++ cdv,
      alookup sup v = supportSpec X ts (effects ++ cdv) bwVec v := by
  simp only [get_support] at h
  intro v hv
  obtain ⟨b, hfb, hlook⟩ := mapM_graph_lookup _
    (fun w r hr => (get_support_elem X ts effects cdv bwVec w r hr).1) _ sup h v hv
  rw [hlook, (get_support_elem X ts effects cdv bwVec v (v, b) hfb).2]

/-- C3: the support cube built at construction maps every variable of
effects ∪ causes ∪ admissible-set to the spec formula: the empirical
(min, max) of its sample column, expanded by ±10 bandwidths for a continuous
variable (bandwidth read from the conditional-density model's fitted vector,
ordered effects then causes + admissible set), unmodified for a discrete
variable. -/
theorem support_construction (env : Env) (X : Table)
    (causes effects adm : List String) (ts : List (String × VarType))
    (expectation densityFlag : Bool) (e : CausalEffect)
    (hcons : CausalEffect.construct env X causes effects adm ts expectation
      densityFlag = Except.ok e) :
    ∀ v ∈ effects ++ (causes ++ adm),
      alookup e.support v =
        supportSpec X ts (effects ++ (causes ++ adm)) e.conditional_density.bw v := by
  obtain ⟨_, _, _, _, _, _, _, _, _, _, _, hsup⟩ :=
    construct_fields env X causes effects adm ts expectation densityFlag e hcons
  exact get_support_lookup X ts effects (causes ++ adm) e.conditional_density.bw
    e.support hsup

/-- Witness for C3: on the concrete estimator `eE` (continuous effects
variable `y` with sample column `[3, 4]` and unit bandwidth), the recorded
support of `y` matches the spec formula, i.e. `(3 - 10, 4 + 10)`. -/
theorem support_construction_witness :
    alookup eE.support "y" =
      supportSpec XE tsE (["y"] ++ (["x"] ++ [])) eE.conditional_density.bw "y" ∧
    alookup eE.support "y" = some (-7, 14) :=
  ⟨support_construction trivEnv XE ["x"] ["y"] [] tsE true true eE rfl "y"
    (by decide),
   by norm_num [eE, okD, CausalEffect.construct, get_support, trivEnv, XE, tsE,
     bwRuleFor, lookupE, alookup, listMin, listMax, ebind_ok, ebind_err, epure_eq,
     List.mapM_cons, List.mapM_nil, supportSpec]⟩

/-- C10: `pdf` reads only the causes/effects columns of the single-row query
and `expected_value` only the causes columns: two rows agreeing on those
columns (whatever extra columns they carry) give identical results, because
each query begins by projecting the row onto its role columns. -/
theorem queries_depend_only_on_role_columns (nq : Nquad) (e : CausalEffect)
    (x x' : Row) :
    ((∀ v ∈ e.causes ++ e.effects, alookup x v = alookup x' v) →
      e.pdf nq x = e.pdf nq x') ∧
    ((∀ v ∈ e.causes, alookup x v = alookup x' v) →
      e.expected_value nq x = e.expected_value nq x') := by
  constructor
  · intro hag
    simp only [CausalEffect.pdf]
    rw [selectRow_congr x x' (e.causes ++ e.effects) hag]
  · intro hag
    simp only [CausalEffect.expected_value]
    rw [selectRow_congr x x' e.causes hag]

/-- Witness for C10: two rows over `eE` agreeing on `x`, `y` but differing
in an extra column `w` give the same `pdf` and `expected_value`. -/
theorem queries_depend_only_on_role_columns_witness :
    (CausalEffect.pdf trivNquad eE [("x", 1), ("y", 3), ("w", 9)] =
      CausalEffect.pdf trivNquad eE [("w", 8), ("x", 1), ("y", 3)]) ∧
    (CausalEffect.expected_value trivNquad eE [("x", 1), ("y", 3), ("w", 9)] =
      CausalEffect.expected_value trivNquad eE [("w", 8), ("x", 1), ("y", 3)]) :=
  ⟨(queries_depend_only_on_role_columns trivNquad eE
      [("x", 1), ("y", 3), ("w", 9)] [("w", 8), ("x", 1), ("y", 3)]).1 (by decide),
   (queries_depend_only_on_role_columns trivNquad eE
      [("x", 1), ("y", 3), ("w", 9)] [("w", 8), ("x", 1), ("y", 3)]).2 (by decide)⟩

/-- C2: with an empty admissible set, `pdf` reduces to the direct
conditional-density evaluation at the causes/effects values of the query and
`expected_value` to the direct conditional-expectation evaluation at the
causes values; the result is the same for every quadrature routine `nq` and
no summation over confounders is performed (the value is one model
evaluation). -/
theorem empty_admissable_direct_eval (env : Env) (nq : Nquad) (X : Table)
    (causes effects : List String) (ts : List (String × VarType))
    (densityFlag : Bool) (e : CausalEffect) (k : KernelReg) (x : Row)
    (hcons : CausalEffect.construct env X causes effects [] ts true densityFlag =
      Except.ok e)
    (hk : e.conditional_expectation = some k)
    (hx : ∀ v ∈ causes ++ effects, (alookup x v).isSome) :
    e.pdf nq x = Except.ok
      (e.conditional_density.pdfFun (selectVals x causes) (selectVals x effects)) ∧
    e.expected_value nq x = Except.ok (k.fitFun (selectVals x causes)) := by
  obtain ⟨hc1, he1, ha1, hcdv, hts, hdz, hcz, _, _, _, hdn, _⟩ :=
    construct_fields env X causes effects [] ts true densityFlag e hcons
  rw [List.filter_nil] at hdz hcz
  constructor
  · simp only [CausalEffect.pdf]
    rw [hc1, he1, selectRow_ok_of x (causes ++ effects) hx]
    simp only [ebind_ok]
    rw [hdz, if_neg (fun hcon => hcon rfl), hcz, if_neg (fun hcon => hcon rfl)]
    rw [selectRow_then x (causes ++ effects) causes
      (fun c hc => List.mem_append_left _ hc)]
    simp only [ebind_ok]
    rw [selectRow_then x (causes ++ effects) effects
      (fun c hc => List.mem_append_right _ hc)]
    simp only [ebind_ok]
    rw [rowVals_graph, rowVals_graph, epure_eq]
    rfl
  · simp only [CausalEffect.expected_value]
    have hxc : ∀ v ∈ causes, (alookup x v).isSome :=
      fun v hv => hx v (List.mem_append_left _ hv)
    rw [hc1, selectRow_ok_of x causes hxc]
    simp only [ebind_ok]
    rw [hdz, if_neg (fun hcon => hcon rfl), hcz, if_neg (fun hcon => hcon rfl)]
    rw [selectRow_then x causes causes (fun c hc => hc)]
    simp only [ebind_ok]
    rw [hk, rowVals_graph]
    rfl

/-- Witness for C2 on the concrete estimator `eE` (empty admissible set):
both queries return one direct model evaluation. -/
theorem empty_admissable_direct_eval_witness :
    CausalEffect.pdf trivNquad eE xE = Except.ok
      (eE.conditional_density.pdfFun (selectVals xE ["x"]) (selectVals xE ["y"])) ∧
    CausalEffect.expected_value trivNquad eE xE =
      Except.ok (kE.fitFun (selectVals xE ["x"])) :=
  empty_admissable_direct_eval trivEnv trivNquad XE ["x"] ["y"] tsE true eE kE xE
    rfl rfl (by decide)

theorem integration_function_nonneg (e : CausalEffect)
    (hc : ∀ a b, 0 ≤ e.conditional_density.pdfFun a b)
    (hd : ∀ d, e.density = some d → ∀ a, 0 ≤ d.pdfFun a) :
    ∀ pt q, e.integration_function pt = Except.ok q → 0 ≤ q := by
  intro pt q h
  simp only [CausalEffect.integration_function] at h
  obtain ⟨exogRow, _, h⟩ := bind_ok_inv _ _ _ h
  obtain ⟨endogRow, _, h⟩ := bind_ok_inv _ _ _ h
  cases hdens : e.density with
  | none => rw [hdens] at h; exact Except.noConfusion h
  | some d =>
    rw [hdens] at h
    obtain ⟨zRow, _, h⟩ := bind_ok_inv _ _ _ h
    rw [epure_eq] at h
    injection h with h
    subst h
    exact mul_nonneg (hc _ _) (hd d hdens _)

/-- C5: `pdf` returns a nonnegative value for every query on which it
succeeds, whenever the collaborator contracts hold: the fitted conditional
and marginal densities are pointwise nonnegative and quadrature applied to a
pointwise-nonnegative integrand yields a nonnegative value. -/
theorem pdf_nonneg (nq : Nquad) (e : CausalEffect) (x : Row) (r : ℚ)
    (hc : ∀ a b, 0 ≤ e.conditional_density.pdfFun a b)
    (hd : ∀ d, e.density = some d → ∀ a, 0 ≤ d.pdfFun a)
    (hq : ∀ f rg ar v, (∀ pt q, f pt = Except.ok q → 0 ≤ q) →
      nq f rg ar = Except.ok v → 0 ≤ v)
    (h : e.pdf nq x = Except.ok r) : 0 ≤ r := by
  simp only [CausalEffect.pdf] at h
  obtain ⟨xr, hsel, h⟩ := bind_ok_inv _ _ _ h
  by_cases h1 : e.discrete_Z = []
  · rw [if_neg (fun hcon => hcon h1)] at h
    by_cases h2 : e.continuous_Z = []
    · rw [if_neg (fun hcon => hcon h2)] at h
      obtain ⟨exogRow, _, h⟩ := bind_ok_inv _ _ _ h
      obtain ⟨endogRow, _, h⟩ := bind_ok_inv _ _ _ h
      rw [epure_eq] at h
      injection h with h
      subst h
      exact hc _ _
    · rw [if_pos h2] at h
      obtain ⟨rgs, _, h⟩ := bind_ok_inv _ _ _ h
      exact hq _ _ _ _ (integration_function_nonneg e hc hd) h
  · rw [if_pos h1] at h
    obtain ⟨rgs, _, h⟩ := bind_ok_inv _ _ _ h
    refine foldlM_nonneg _ _ ?_ 0 r (le_refl 0) h
    intro acc zv rr hzv hacc hstep
    by_cases h2 : e.continuous_Z = []
    · rw [if_neg (fun hcon => hcon h2)] at hstep
      obtain ⟨zsel, _, hstep⟩ := bind_ok_inv _ _ _ hstep
      obtain ⟨joined, _, hstep⟩ := bind_ok_inv _ _ _ hstep
      obtain ⟨exogp, _, hstep⟩ := bind_ok_inv _ _ _ hstep
      obtain ⟨endog2, _, hstep⟩ := bind_ok_inv _ _ _ hstep
      cases hdens : e.density with
      | none => rw [hdens] at hstep; exact Except.noConfusion hstep
      | some d =>
        rw [hdens] at hstep
        injection hstep with hstep
        subst hstep
        exact add_nonneg hacc (mul_nonneg (hc _ _) (hd d hdens _))
    · rw [if_pos h2] at hstep
      obtain ⟨crg, _, hstep⟩ := bind_ok_inv _ _ _ hstep
      obtain ⟨joined, _, hstep⟩ := bind_ok_inv _ _ _ hstep
      obtain ⟨t, hnq, hstep⟩ := bind_ok_inv _ _ _ hstep
      rw [epure_eq] at hstep
      injection hstep with hstep
      subst hstep
      exact add_nonneg hacc (hq _ _ _ _ (integration_function_nonneg e hc hd) hnq)

/-- Witness for C5 on the concrete estimator `eE` and query `xE`, where the
collaborator densities are the constant `1`. -/
theorem pdf_nonneg_witness :
    CausalEffect.pdf trivNquad eE xE = Except.ok 1 ∧ (0:ℚ) ≤ 1 :=
  ⟨rfl,
   pdf_nonneg trivNquad eE xE 1
    (fun a b => by show (0:ℚ) ≤ 1; norm_num)
    (fun d hd => Option.noConfusion hd)
    (fun f rg ar v _ hv => by
      injection hv with hv
      subst hv
      exact le_refl 0)
    rfl⟩

/-- C1: for a constructed estimator whose admissible set is non-empty and
contains only discrete variables, `pdf` returns exactly the sum, over the
Cartesian product of the inclusive integer ranges recorded in the support
cube for the discrete confounders, of conditional density (at the query's
causes/effects values and the discrete point) times marginal density (at the
discrete point) — and the result is the same for every quadrature routine
`nq`, i.e. no quadrature call contributes. -/
theorem pdf_discrete_only_sum (env : Env) (nq : Nquad) (X : Table)
    (causes effects adm : List String) (ts : List (String × VarType))
    (expectation densityFlag : Bool) (e : CausalEffect) (x : Row)
    (d : KDEMultivariate) (sp : String → ℚ × ℚ)
    (hcons : CausalEffect.construct env X causes effects adm ts expectation
      densityFlag = Except.ok e)
    (hne : adm ≠ [])
    (hdisc : ∀ v ∈ adm, ∃ t, alookup ts v = some t ∧ t.isDiscrete = true)
    (hnodupT : (ts.map (·.1)).Nodup)
    (hnodupA : adm.Nodup)
    (hdisj : ∀ v ∈ adm, v ∉ causes ++ effects)
    (hx : ∀ v ∈ causes ++ effects, (alookup x v).isSome)
    (hd : e.density = some d)
    (hsp : ∀ v ∈ adm, alookup e.support v = some (sp v)) :
    e.pdf nq x = Except.ok
      (((cartProd (adm.map (fun v =>
          (intRange (pyInt (sp v).1) (pyInt (sp v).2 + 1)).map
            (fun z => (z : ℚ))))).map
        (fun zpt => e.conditional_density.pdfFun (selectVals x causes ++ zpt)
            (selectVals x effects) * d.pdfFun zpt)).sum) := by
  obtain ⟨hc1, he1, ha1, hcdv, hts, hdz, hcz, _, _, _, _, _⟩ :=
    construct_fields env X causes effects adm ts expectation densityFlag e hcons
  have hdzadm : e.discrete_Z = adm := by
    rw [hdz]
    apply List.filter_eq_self.mpr
    intro v hv
    obtain ⟨t, ht, htd⟩ := hdisc v hv
    exact decide_eq_true (mem_filter_keys_of_lookup ts v t _ ht htd)
  have hczadm : e.continuous_Z = [] := by
    rw [hcz]
    apply List.filter_eq_nil_iff.mpr
    intro v hv
    obtain ⟨t, ht, htd⟩ := hdisc v hv
    have htc : t.isContinuous = false := by
      cases t
      · simp [VarType.isDiscrete] at htd
      · rfl
      · rfl
    simp only [decide_eq_true_eq]
    exact fun hdec => not_mem_filter_keys_of_lookup ts v t _ hnodupT ht htc hdec
  simp only [CausalEffect.pdf, dfRow]
  rw [hc1, he1, ha1, hcdv, hdzadm, hczadm]
  rw [selectRow_ok_of x (causes ++ effects) hx]
  simp only [ebind_ok]
  rw [if_pos hne]
  have hranges : adm.mapM (fun v => do
      let s ← lookupE e.support v
      pure ((intRange (pyInt s.1) (pyInt s.2 + 1)).map (fun z => (z : ℚ)))) =
    Except.ok (adm.map (fun v =>
      (intRange (pyInt (sp v).1) (pyInt (sp v).2 + 1)).map (fun z => (z : ℚ)))) := by
    apply mapM_ok_of_forall
    intro v hv
    rw [lookupE_eq_ok _ _ _ (hsp v hv), ebind_ok]
    rfl
  rw [hranges]
  simp only [ebind_ok]
  refine (foldlM_acc_ok _
    (fun zpt => e.conditional_density.pdfFun (selectVals x causes ++ zpt)
      (selectVals x effects) * d.pdfFun zpt) _ ?_ 0).trans (by rw [zero_add])
  intro acc zv hzv
  have hlen : zv.length = adm.length := by
    have hh := cartProd_mem_length _ _ hzv
    simpa using hh
  dsimp only
  rw [if_neg (fun hcon => hcon rfl)]
  rw [selectRow_zip_self adm zv hnodupA hlen.symm]
  simp only [ebind_ok]
  have hjoin : joinRow ((causes ++ effects).map
      (fun c => (c, (alookup x c).getD 0))) (adm.zip zv) =
      Except.ok ((causes ++ effects).map (fun c => (c, (alookup x c).getD 0)) ++
        adm.zip zv) := by
    apply joinRow_ok
    intro p hp
    obtain ⟨c, hc, rfl⟩ := List.mem_map.mp hp
    exact alookup_zip_of_not_mem adm zv c (fun hcadm => hdisj c hcadm hc)
  rw [hjoin]
  simp only [ebind_ok]
  have hJc : ∀ c ∈ causes,
      alookup ((causes ++ effects).map (fun c => (c, (alookup x c).getD 0)) ++
        adm.zip zv) c = some ((alookup x c).getD 0) := by
    intro c hc
    rw [alookup_append_left]
    · rw [alookup_graph]
      simp [List.mem_append_left _ hc]
    · rw [alookup_graph]
      simp [List.mem_append_left _ hc]
  have hJa : ∀ v ∈ adm,
      alookup ((causes ++ effects).map (fun c => (c, (alookup x c).getD 0)) ++
        adm.zip zv) v = alookup (adm.zip zv) v := by
    intro v hv
    apply alookup_append_right
    rw [alookup_graph]
    simp [hdisj v hv]
  have hzipSome : ∀ v ∈ adm, (alookup (adm.zip zv) v).isSome := by
    have := (selectRow_ok_inv _ _ _ (selectRow_zip_self adm zv hnodupA hlen.symm)).1
    exact this
  have hsel2 : selectRow ((causes ++ effects).map
      (fun c => (c, (alookup x c).getD 0)) ++ adm.zip zv) (causes ++ adm) =
      Except.ok ((causes ++ adm).map (fun c => (c,
        (alookup ((causes ++ effects).map (fun c => (c, (alookup x c).getD 0)) ++
          adm.zip zv) c).getD 0))) := by
    apply selectRow_ok_of
    intro c hc
    rcases List.mem_append.mp hc with hc | hc
    · rw [hJc c hc]; rfl
    · rw [hJa c hc]; exact hzipSome c hc
  rw [hsel2]
  simp only [ebind_ok]
  rw [selectRow_then x (causes ++ effects) effects
    (fun c hc => List.mem_append_right _ hc)]
  simp only [ebind_ok]
  rw [hd]
  rw [rowVals_graph, rowVals_graph]
  have hexogvals : (causes ++ adm).map (fun c =>
      (alookup ((causes ++ effects).map (fun c => (c, (alookup x c).getD 0)) ++
        adm.zip zv) c).getD 0) = selectVals x causes ++ zv := by
    rw [List.map_append]
    congr 1
    · apply List.map_congr_left
      intro c hc
      rw [hJc c hc]
      rfl
    · rw [List.map_congr_left (fun v hv => by rw [hJa v hv])]
      exact map_alookup_zip adm zv hnodupA hlen.symm
  rw [hexogvals]
  rw [zip_vals adm zv hlen.symm]
  rfl

/-- Witness for C1 on the all-discrete fixture `eD`: confounder `z` has
support `(0, 1)`, and `pdf` equals the sum over the inclusive range
`{0, 1}` of conditional × marginal density. -/
theorem pdf_discrete_only_sum_witness :
    CausalEffect.pdf trivNquad eD xD = Except.ok
      (((cartProd (["z"].map (fun _ =>
          (intRange (pyInt (0:ℚ)) (pyInt (1:ℚ) + 1)).map (fun z => (z : ℚ))))).map
        (fun zpt => eD.conditional_density.pdfFun (selectVals xD ["x"] ++ zpt)
            (selectVals xD ["y"]) * dD.pdfFun zpt)).sum) :=
  pdf_discrete_only_sum trivEnv trivNquad XD ["x"] ["y"] ["z"] tsD false true eD xD
    dD (fun _ => ((0:ℚ), (1:ℚ))) rfl (by decide)
    (by
      intro v hv
      simp only [List.mem_singleton] at hv
      subst hv
      exact ⟨VarType.o, rfl, rfl⟩)
    (by decide) (by decide) (by decide) (by decide) rfl
    (by
      intro v hv
      simp only [List.mem_singleton] at hv
      subst hv
      rfl)

/-- Counterexample for C4: the registry `tsC4` contains a continuous
variable `x` that enters none of the fitted models; with causes `y` and
effects `z` (both ordered-discrete) every variable of the conditional model
is discrete, so the claimed per-model rule would select the cross-validated
rule `cv_ml` — but the code computes the rule from all registry values and
fits the conditional density with `normal_reference`. -/
theorem bw_rule_uses_global_registry_cex :
    (CausalEffect.construct trivEnv XC4 ["y"] ["z"] [] tsC4 false true).map
      (fun e => e.conditional_density.bw_rule) = Except.ok "normal_reference" ∧
    (CausalEffect.construct trivEnv XC4 ["y"] ["z"] [] tsC4 false true).map
      (fun e => e.conditional_density.dep_type ++ e.conditional_density.indep_type) =
      Except.ok [VarType.o, VarType.o] ∧
    bwRuleFor [VarType.o, VarType.o] = "cv_ml" ∧
    "normal_reference" ≠ "cv_ml" :=
  ⟨rfl, rfl, rfl, by decide⟩

/-- C4 amended: in `__init__` the bandwidth rule is computed once from the
type tags of ALL variables in the registry and that one rule is passed to
both the marginal and the conditional fits; the expectation fit always uses
`cv_ls`; only the mutual-information fits compute the rule from the type
tags of the two variables entering them. -/
theorem bw_rule_amended (env : Env) (X : Table) (causes effects adm : List String)
    (ts : List (String × VarType)) (expectation densityFlag : Bool)
    (e : CausalEffect)
    (hcons : CausalEffect.construct env X causes effects adm ts expectation
      densityFlag = Except.ok e) :
    e.conditional_density.bw_rule = bwRuleFor (ts.map (·.2)) ∧
    (∀ d, e.density = some d → d.bw_rule = bwRuleFor (ts.map (·.2))) ∧
    (∀ k, e.conditional_expectation = some k → k.bw_rule = "cv_ls") ∧
    (∀ X' x1 x2 t1 t2 e' r,
      alookup e.variable_types x1 = some t1 →
      alookup e.variable_types x2 = some t2 →
      e.biased_mutual_information env X' x1 x2 = Except.ok (e', r) →
      ∀ m, e'.mi_density = some m → m.bw_rule = bwRuleFor [t1, t2]) := by
  obtain ⟨_, _, _, _, _, _, _, hbw, hbd, hbk, _, _⟩ :=
    construct_fields env X causes effects adm ts expectation densityFlag e hcons
  refine ⟨hbw, hbd, hbk, ?_⟩
  intro X' x1 x2 t1 t2 e' r ht1 ht2 hmi m hm
  simp only [CausalEffect.biased_mutual_information] at hmi
  obtain ⟨u1, hu1, hmi⟩ := lookupE_bind_ok _ _ _ _ hmi
  obtain ⟨u2, hu2, hmi⟩ := lookupE_bind_ok _ _ _ _ hmi
  rw [ht1] at hu1
  injection hu1 with hu1
  subst hu1
  rw [ht2] at hu2
  injection hu2 with hu2
  subst hu2
  obtain ⟨colx2, _, hmi⟩ := lookupE_bind_ok _ _ _ _ hmi
  obtain ⟨colx1, _, hmi⟩ := lookupE_bind_ok _ _ _ _ hmi
  obtain ⟨sx2, _, hmi⟩ := lookupE_bind_ok _ _ _ _ hmi
  obtain ⟨H1, _, hmi⟩ := bind_ok_inv _ _ _ hmi
  obtain ⟨sx1, _, hmi⟩ := lookupE_bind_ok _ _ _ _ hmi
  obtain ⟨H2, _, hmi⟩ := bind_ok_inv _ _ _ hmi
  injection hmi with hmi
  injection hmi with hmi1 hmi2
  subst hmi1
  injection hm with hm
  subst hm
  rfl

/-- Witness for the amended C4 on the concrete estimator `e7`. -/
theorem bw_rule_amended_witness :
    e7.conditional_density.bw_rule = bwRuleFor (ts7.map (·.2)) :=
  (bw_rule_amended trivEnv X7 ["a"] ["b"] [] ts7 false true e7 rfl).1

/-- Counterexample for C6: constructing with overlapping roles
(causes = effects = `["a"]`) does not fail — a fully built estimator is
returned, with no `ConfigurationError` raised. -/
theorem construct_accepts_overlap_cex :
    (CausalEffect.construct trivEnv X6 ["a"] ["a"] [] ts6 false true).map
      (fun _ => "built") = Except.ok "built" := rfl

/-- Counterexample for C9: `biased_mutual_information` assigns its per-call
fits and the `x1`/`x2` names onto the estimator — they are cached on the
instance and survive the call (the freshly constructed estimator had
none of them set). -/
theorem mi_mutates_estimator_cex :
    (e7.biased_mutual_information trivEnv X7 "a" "b").map
      (fun p => (p.1.x1, p.1.x2, p.1.mi_density.isSome,
        p.1.mi_conditional_density.isSome, p.1.x1_integration_density.isSome)) =
      Except.ok (some "a", some "b", true, true, true) ∧
    (e7.x1, e7.x2, e7.mi_density.isSome, e7.mi_conditional_density.isSome,
      e7.x1_integration_density.isSome) = (none, none, false, false, false) :=
  ⟨rfl, rfl⟩

/-- C9 amended: the construction-time bundle (support cube, marginal,
conditional and expectation models) and the causal specification are left
unchanged by `biased_mutual_information`, and `pdf`/`expected_value` are
pure queries returning only a value; but the per-call mutual-information
fits and the `x1`/`x2` names ARE stored on the estimator and survive the
call (to be overwritten by the next call). -/
theorem mi_state_change_amended (env : Env) (e : CausalEffect) (X : Table)
    (x1 x2 : String) (e' : CausalEffect) (r : PyFloat)
    (h : e.biased_mutual_information env X x1 x2 = Except.ok (e', r)) :
    e'.support = e.support ∧ e'.density = e.density ∧
    e'.conditional_density = e.conditional_density ∧
    e'.conditional_expectation = e.conditional_expectation ∧
    e'.causes = e.causes ∧ e'.effects = e.effects ∧
    e'.admissable_set = e.admissable_set ∧
    e'.variable_types = e.variable_types ∧
    e'.discrete_Z = e.discrete_Z ∧ e'.continuous_Z = e.continuous_Z ∧
    e'.x1 = some x1 ∧ e'.x2 = some x2 ∧
    e'.mi_density.isSome ∧ e'.mi_conditional_density.isSome ∧
    e'.x1_integration_density.isSome := by
  simp only [CausalEffect.biased_mutual_information] at h
  obtain ⟨t1, _, h⟩ := lookupE_bind_ok _ _ _ _ h
  obtain ⟨t2, _, h⟩ := lookupE_bind_ok _ _ _ _ h
  obtain ⟨colx2, _, h⟩ := lookupE_bind_ok _ _ _ _ h
  obtain ⟨colx1, _, h⟩ := lookupE_bind_ok _ _ _ _ h
  obtain ⟨sx2, _, h⟩ := lookupE_bind_ok _ _ _ _ h
  obtain ⟨H1, _, h⟩ := bind_ok_inv _ _ _ h
  obtain ⟨sx1, _, h⟩ := lookupE_bind_ok _ _ _ _ h
  obtain ⟨H2, _, h⟩ := bind_ok_inv _ _ _ h
  injection h with h
  injection h with h1 h2
  subst h1
  exact ⟨rfl, rfl, rfl, rfl, rfl, rfl, rfl, rfl, rfl, rfl, rfl, rfl, rfl, rfl, rfl⟩

/-- Witness for the amended C9 on the concrete call stored in `e7mi`. -/
theorem mi_state_change_amended_witness :
    e7mi.support = e7.support ∧ e7mi.x1 = some "a" :=
  ⟨(mi_state_change_amended trivEnv e7 X7 "a" "b" e7mi r7mi rfl).1,
   (mi_state_change_amended trivEnv e7 X7 "a" "b" e7mi
      r7mi rfl).2.2.2.2.2.2.2.2.2.2.1⟩

/-- C7 (code defect): in `biased_mutual_information("a", "b")` the density
used as the marginal factor for x1 — `x1_integration_density` — is fitted
on x2's sample column (`[5, 6]`, not x1's `[1, 2]`), and the conditional
density of x2 given x1 is fitted with x1's type tag as `dep_type` and x2's
as `indep_type`, swapped relative to the variables these models model. -/
theorem mi_marginal_fit_uses_x2_column :
    (e7.biased_mutual_information trivEnv X7 "a" "b").map
      (fun p => p.1.x1_integration_density.map (fun m => (m.data, m.var_type))) =
      Except.ok (some ([[5, 6]], [VarType.c])) ∧
    alookup X7 "a" = some [1, 2] ∧
    ([[(5:ℚ), 6]] : List (List ℚ)) ≠ [[1, 2]] ∧
    (e7.biased_mutual_information trivEnv X7 "a" "b").map
      (fun p => p.1.mi_conditional_density.map
        (fun m => (m.dep_type, m.indep_type))) =
      Except.ok (some ([VarType.c], [VarType.o])) :=
  ⟨rfl, rfl, by decide, rfl⟩

theorem lookupE_error {α : Type} (m : List (String × α)) (k : String) (s : String)
    (h : lookupE m k = Except.error s) : s = "KeyError" := by
  cases hv : alookup m k with
  | none =>
    rw [lookupE_eq_err _ _ hv] at h
    injection h with h
    exact h.symm
  | some v =>
    rw [lookupE_eq_ok _ _ _ hv] at h
    exact Except.noConfusion h

theorem bind_error_inv {α β : Type} (m : Except String α) (f : α → Except String β)
    (s : String) (h : (m >>= f) = Except.error s) :
    m = Except.error s ∨ ∃ a, m = Except.ok a ∧ f a = Except.error s := by
  cases m with
  | error s2 =>
    rw [ebind_err] at h
    injection h with h
    subst h
    exact Or.inl rfl
  | ok a =>
    rw [ebind_ok] at h
    exact Or.inr ⟨a, rfl, h⟩

theorem mapM_error_elem {α β : Type} (l : List α) (f : α → Except String β)
    (s : String) (h : l.mapM f = Except.error s) : ∃ a ∈ l, f a = Except.error s := by
  induction l with
  | nil =>
    rw [List.mapM_nil] at h
    exact Except.noConfusion h
  | cons hd tl ih =>
    rw [List.mapM_cons] at h
    rcases bind_error_inv _ _ _ h with h1 | ⟨a, _, h2⟩
    · exact ⟨hd, List.mem_cons_self hd tl, h1⟩
    · rcases bind_error_inv _ _ _ h2 with h3 | ⟨rs, _, h4⟩
      · obtain ⟨b, hb, hfb⟩ := ih h3
        exact ⟨b, List.mem_cons_of_mem hd hb, hfb⟩
      · exact Except.noConfusion h4

theorem mapM_lookupE_error {α : Type} (m : List (String × α)) (l : List String)
    (s : String) (h : l.mapM (lookupE m) = Except.error s) : s = "KeyError" := by
  obtain ⟨a, _, ha⟩ := mapM_error_elem l (lookupE m) s h
  exact lookupE_error m a s ha

theorem get_support_elem_error (X : Table) (ts : List (String × VarType))
    (effects cdv : List String) (bwVec : List ℚ) (v : String) (s : String)
    (h : (do
      let t ← lookupE ts v
      let ds ← lookupE (X.map (fun c => (c.1, (listMin c.2, listMax c.2)))) v
      if t = VarType.c then do
        let bw ← lookupE ((effects ++ cdv).zip bwVec) v
        pure (v, (ds.1 - 10 * bw, ds.2 + 10 * bw))
      else pure (v, ds)) = Except.error s) : s = "KeyError" := by
  rcases bind_error_inv _ _ _ h with h1 | ⟨t, _, h2⟩
  · exact lookupE_error _ _ _ h1
  · rcases bind_error_inv _ _ _ h2 with h3 | ⟨ds, _, h4⟩
    · exact lookupE_error _ _ _ h3
    · by_cases htc : t = VarType.c
      · rw [if_pos htc] at h4
        rcases bind_error_inv _ _ _ h4 with h5 | ⟨bw, _, h6⟩
        · exact lookupE_error _ _ _ h5
        · exact Except.noConfusion h6
      · rw [if_neg htc] at h4
        exact Except.noConfusion h4

theorem get_support_error (X : Table) (ts : List (String × VarType))
    (effects cdv : List String) (bwVec : List ℚ) (s : String)
    (h : get_support X ts effects cdv bwVec = Except.error s) : s = "KeyError" := by
  simp only [get_support] at h
  obtain ⟨v, _, hferr⟩ := mapM_error_elem _ _ _ h
  exact get_support_elem_error X ts effects cdv bwVec v s hferr

/-- C6 amended: construction never fails with a `ConfigurationError` — no
disjointness or membership validation exists.  Overlapping
causes/effects/admissible sets are accepted and a fully built estimator is
returned (see the counterexample); the only construction-time failures are
the `KeyError` of a dict/column lookup on a missing variable and the
`AttributeError` reached with a falsy type registry, and each of those does
abort construction with no estimator returned. -/
theorem construct_error_classification (env : Env) (X : Table)
    (causes effects adm : List String) (ts : List (String × VarType))
    (expectation densityFlag : Bool) (s : String)
    (h : CausalEffect.construct env X causes effects adm ts expectation
      densityFlag = Except.error s) :
    s = "KeyError" ∨ s = "AttributeError" := by
  simp only [CausalEffect.construct] at h
  split at h
  · injection h with h
    exact Or.inr h.symm
  · rcases bind_error_inv _ _ _ h with h1 | ⟨dep, _, h⟩
    · exact Or.inl (mapM_lookupE_error ts effects s h1)
    rcases bind_error_inv _ _ _ h with h1 | ⟨indep, _, h⟩
    · exact Or.inl (mapM_lookupE_error ts _ s h1)
    rcases bind_error_inv _ _ _ h with h1 | ⟨dts, _, h⟩
    · exact Or.inl (mapM_lookupE_error ts adm s h1)
    split at h
    · rw [epure_eq, ebind_ok] at h
      rcases bind_error_inv _ _ _ h with h1 | ⟨endog, _, h⟩
      · exact Or.inl (mapM_lookupE_error X effects s h1)
      rcases bind_error_inv _ _ _ h with h1 | ⟨exog, _, h⟩
      · exact Or.inl (mapM_lookupE_error X _ s h1)
      rcases bind_error_inv _ _ _ h with h1 | ⟨sup, _, h⟩
      · exact Or.inl (get_support_error X ts effects _ _ s h1)
      exact Except.noConfusion h
    · rcases bind_error_inv _ _ _ h with h1 | ⟨cols, _, h⟩
      · exact Or.inl (mapM_lookupE_error X adm s h1)
      rw [epure_eq, ebind_ok] at h
      rcases bind_error_inv _ _ _ h with h1 | ⟨endog, _, h⟩
      · exact Or.inl (mapM_lookupE_error X effects s h1)
      rcases bind_error_inv _ _ _ h with h1 | ⟨exog, _, h⟩
      · exact Or.inl (mapM_lookupE_error X _ s h1)
      rcases bind_error_inv _ _ _ h with h1 | ⟨sup, _, h⟩
      · exact Or.inl (get_support_error X ts effects _ _ s h1)
      exact Except.noConfusion h

/-- Witness for the amended C6: constructing with an effects variable `n`
absent from the type registry fails with `KeyError`. -/
theorem construct_error_classification_witness :
    ("KeyError" : String) = "KeyError" ∨ ("KeyError" : String) = "AttributeError" :=
  construct_error_classification trivEnv [] ["m"] ["n"] []
    [("a", VarType.c)] false true "KeyError" rfl

/-- C8 (code defect): when a fitted density evaluates to exactly zero, the
entropy integrand computes `-p · log p = 0 · (-inf) = NaN` under numpy
semantics — not a zero contribution — and the `biased_mutual_information`
call returns NaN to the caller. -/
theorem entropy_zero_density_yields_nan :
    (do
      let e ← CausalEffect.construct zeroEnv XZ ["a"] ["b"] [] tsZ false true
      let p ← e.biased_mutual_information zeroEnv XZ "a" "b"
      pure p.2 : Except String PyFloat) = Except.ok PyFloat.nan ∧
    PyFloat.nan ≠ PyFloat.fin 0 :=
  ⟨by
    norm_num [CausalEffect.construct, CausalEffect.biased_mutual_information,
      CausalEffect.entropy_integration_function, get_support, zeroEnv, XZ, tsZ,
      bwRuleFor, lookupE, alookup, listMin, listMax, dfRow, pyMul, pyNeg, pyAdd,
      pySub, npLog, ebind_ok, ebind_err, epure_eq, List.mapM_cons, List.mapM_nil,
      List.mapM, List.mapM.loop, List.zip, List.zipWith, Option.getD],
   by decide⟩

end CausalReg
